import Mathlib

/-!
# KRdp session core (`RdpConnection.cpp`): a shallow embedding

The embedding follows `src/patches/krdp-overlay/src/RdpConnection.cpp`.

* A `QString` is its sequence of UTF-16 code units (`List Nat`).  The Qt string
  operations used by the source (`trimmed`, `indexOf`, `lastIndexOf`, `mid`,
  `left`, case-insensitive `compare`, `toLatin1`, `fromLatin1`) are modelled on
  that representation.  Qt's Unicode property tables (case folding, the space
  categories beyond Latin-1) are not part of the repository and are taken as a
  parameter `QUnicodeTables`; everything Qt decides inline for ASCII is concrete.
* Indices are C++ `int`/`qsizetype`; they are modelled as unbounded `Int`
  (login names are far shorter than `2^31` code units).
* Calls into collaborators (PAM, the FreeRDP peer, the video stream, the
  clipboard, the server) are recorded in a trace of `Event`s; what the
  collaborators answer is an input of the model.
-/

namespace KRdp

/-! ## Qt strings -/

/-- One UTF-16 code unit. -/
abbrev QChar := Nat

/-- A `QString`: its UTF-16 code units in order. -/
abbrev QString := List QChar

/-- The tables of Qt's `QUnicodeTables` consulted by the string functions below. -/
structure QUnicodeTables where
  /-- case folding of a code point beyond ASCII (`convertCase_helper` with `CaseFold`) -/
  caseFold : Nat → Nat
  /-- the table test of `QChar::isSpace_helper` (categories Zs, Zl, Zp) -/
  isSpace_helper : Nat → Bool
  /-- the UTF-16 decoder behind `QString::fromUtf16` (byte-order mark, ill-formed pairs) -/
  fromUtf16 : List Nat → List Nat

/-- UTF-16 encoding of a string literal (`QStringLiteral`, `u"..."`). -/
def QStringLiteral (s : String) : QString :=
  s.toList.flatMap (fun c =>
    if c.toNat < 0x10000 then [c.toNat]
    else [0xD800 + (c.toNat - 0x10000) / 0x400, 0xDC00 + (c.toNat - 0x10000) % 0x400])

/-- `QChar::isSpace(char32_t)`. -/
def isSpace (U : QUnicodeTables) (ucs4 : Nat) : Bool :=
  ucs4 == 0x20 || (ucs4 ≤ 0x0d && 0x09 ≤ ucs4)
    || (127 < ucs4 && (ucs4 == 0x85 || ucs4 == 0xa0 || U.isSpace_helper ucs4))

/-- `QString::trimmed()`: strip the code units that are spaces from the end and
from the beginning. -/
def trimmed (U : QUnicodeTables) (s : QString) : QString :=
  ((s.reverse.dropWhile (isSpace U)).reverse).dropWhile (isSpace U)

/-- Scan for the first occurrence of `ch`; `i` is the index of the head. -/
def indexOfFrom (ch : QChar) : QString → Nat → Int
  | [], _ => -1
  | c :: cs, i => if c = ch then (i : Int) else indexOfFrom ch cs (i + 1)

/-- `QString::indexOf(QChar)`: index of the first occurrence, `-1` when absent. -/
def indexOf (s : QString) (ch : QChar) : Int := indexOfFrom ch s 0

/-- Scan for the last occurrence of `ch`; `i` is the index of the head and `found`
the last occurrence seen so far. -/
def lastIndexOfFrom (ch : QChar) : QString → Nat → Int → Int
  | [], _, found => found
  | c :: cs, i, found => lastIndexOfFrom ch cs (i + 1) (if c = ch then (i : Int) else found)

/-- `QString::lastIndexOf(QChar)`: index of the last occurrence, `-1` when absent. -/
def lastIndexOf (s : QString) (ch : QChar) : Int := lastIndexOfFrom ch s 0 (-1)

/-- `QString::mid(position)` for a position inside the string. -/
def mid (s : QString) (position : Int) : QString := s.drop position.toNat

/-- `QStringView::left(n)`. -/
def left (s : QString) (n : Int) : QString := s.take n.toNat

/-- `QString::size()`. -/
def size (s : QString) : Int := (s.length : Int)

/-- `QChar::isHighSurrogate`. -/
def isHighSurrogate (ucs4 : Nat) : Bool := 0xD800 ≤ ucs4 && ucs4 ≤ 0xDBFF

/-- `QChar::isLowSurrogate`. -/
def isLowSurrogate (ucs4 : Nat) : Bool := 0xDC00 ≤ ucs4 && ucs4 ≤ 0xDFFF

/-- `QChar::surrogateToUcs4(high, low)`. -/
def surrogateToUcs4 (high low : Nat) : Nat := (high * 0x400 + low) - 0x35fdc00

/-- Case folding of one code point: ASCII capitals fold to their small letters,
the other ASCII code points to themselves, the rest by Qt's table. -/
def foldCasePoint (U : QUnicodeTables) (ucs4 : Nat) : Nat :=
  if 0x41 ≤ ucs4 ∧ ucs4 ≤ 0x5a then ucs4 + 0x20
  else if ucs4 < 0x80 then ucs4
  else U.caseFold ucs4

/-- Qt's `foldCase(char32_t ch, char32_t &last)`: a low surrogate that follows a
high surrogate is folded as the code point of the pair. -/
def foldCase (U : QUnicodeTables) (ch last : Nat) : Nat :=
  foldCasePoint U (if isLowSurrogate ch && isHighSurrogate last then surrogateToUcs4 last ch else ch)

/-- Qt's `ucstricmp`: the loop over both strings, `alast`/`blast` the code units
seen last. -/
def ucstricmp (U : QUnicodeTables) : QString → QString → Nat → Nat → Int
  | [], [], _, _ => 0
  | [], _ :: _, _, _ => -1
  | _ :: _, [], _, _ => 1
  | a :: as, b :: bs, alast, blast =>
    let diff : Int := (foldCase U a alast : Int) - (foldCase U b blast : Int)
    if diff ≠ 0 then diff else ucstricmp U as bs a b

/-- `QString::compare(other, Qt::CaseInsensitive)`. -/
def compareCaseInsensitive (U : QUnicodeTables) (a b : QString) : Int := ucstricmp U a b 0 0

/-- `QString::toLatin1()`: code units beyond Latin-1 become `?`. -/
def toLatin1 (s : QString) : List Nat := s.map (fun c => if c > 0xff then 0x3f else c)

/-- `QString::fromLatin1(const char *)` of the bytes before the terminating NUL. -/
def fromLatin1 (bytes : List Nat) : QString := bytes

/-- The case-folded form of a string as `ucstricmp` reads it, unit by unit; `last` is
the code unit before the string. -/
def folded (U : QUnicodeTables) : QString → Nat → List Nat
  | [], _ => []
  | a :: as, last => foldCase U a last :: folded U as a

/-! ## Login names -/

/-- `normalizeLoginName` (RdpConnection.cpp:149). -/
def normalizeLoginName (U : QUnicodeTables) (userName : QString) : QString :=
  let userName := trimmed U userName
  -- Some clients send DOMAIN\\user or DOMAIN/user.
  let separatorIndex : Int := max (lastIndexOf userName 0x5c) (lastIndexOf userName 0x2f)
  let userName :=
    if separatorIndex ≥ 0 ∧ separatorIndex + 1 < size userName then mid userName (separatorIndex + 1)
    else userName
  trimmed U userName

/-- `matchesLoginName` (RdpConnection.cpp:162). -/
def matchesLoginName (U : QUnicodeTables) (actualName configuredName : QString) : Bool :=
  if configuredName.isEmpty then false
  else if compareCaseInsensitive U actualName configuredName = 0 then true
  else
    -- Some clients send user@domain. Accept when the local part matches.
    let atSignIndex : Int := indexOf actualName 0x40
    if atSignIndex > 0 then
      let localPart := left actualName atSignIndex
      if compareCaseInsensitive U localPart configuredName = 0 then true else false
    else false

/-! ## Session states and the trace of calls -/

/-- `RdpConnection::State`. -/
inductive State
  | Initial | Starting | Running | Streaming | Closed
  deriving DecidableEq, Repr

/-- What a session does that its collaborators can observe, in order. -/
inductive Event
  /-- line 616: the credential verifier has been entered with these arguments -/
  | authenticateLogin (rawUsername password : QString)
  | pam_start
  /-- `pam_authenticate`, with the answers the conversation function gives -/
  | pam_authenticate (user password : List Nat)
  | pam_acct_mgmt
  /-- `d->server->users()` -/
  | users
  /-- `Q_EMIT stateChanged(newState)` -/
  | stateChanged (state : State)
  /-- `d->peer->Close(d->peer)` -/
  | peerClose
  | freerdp_set_error_info
  | videoStreamInitialize
  | videoStreamSetEnabled (enabled : Bool)
  | videoStreamClose
  | clipboardInitialize
  | clipboardClose
  | SetEvent
  | WTSVirtualChannelManagerCheckFileDescriptor
  | networkDetectionUpdate
  deriving DecidableEq, Repr

/-! ## The login service (PAM) and the server configuration -/

/-- `PAM_SUCCESS`. -/
def PAM_SUCCESS : Int := 0

/-- The host the server runs on: the login name of the process (`KUser().loginName()`)
and the answers of the PAM `login` service, as functions of what the conversation
function hands over. -/
structure Host where
  loginName : QString
  pam_start : Int
  pam_authenticate : List Nat → List Nat → Int
  pam_acct_mgmt : List Nat → List Nat → Int

/-- The bytes of a C string: what `_strdup(constData())` copies. -/
def cString (bytes : List Nat) : List Nat := bytes.takeWhile (fun b => b != 0)

/-- `pamAuthenticate` (RdpConnection.cpp:115): `1` on success, `-1` on any failure. -/
def pamAuthenticate (host : Host) (user password : QString) : Int × List Event :=
  let appdataUser := cString (toLatin1 user)
  let appdataPassword := cString (toLatin1 password)
  let pam_status := host.pam_start
  if pam_status ≠ PAM_SUCCESS then (-1, [Event.pam_start])
  else
    let pam_status := host.pam_authenticate appdataUser appdataPassword
    if pam_status ≠ PAM_SUCCESS then
      (-1, [Event.pam_start, Event.pam_authenticate appdataUser appdataPassword])
    else
      let pam_status := host.pam_acct_mgmt appdataUser appdataPassword
      if pam_status ≠ PAM_SUCCESS then
        (-1, [Event.pam_start, Event.pam_authenticate appdataUser appdataPassword, Event.pam_acct_mgmt])
      else
        (1, [Event.pam_start, Event.pam_authenticate appdataUser appdataPassword, Event.pam_acct_mgmt])

/-- A configured user of the server. -/
structure User where
  name : QString
  password : QString
  deriving DecidableEq, Repr

/-- The configuration the session borrows from its `Server`. -/
structure Server where
  usePAMAuthentication : Bool
  users : List User

/-- The loop over the configured users in `authenticateLogin` (lines 627-636). -/
def scanUsers (U : QUnicodeTables) (username password : QString) : List User → Bool
  | [] => false
  | user :: users =>
    if user.password.isEmpty then scanUsers U username password users
    else if matchesLoginName U username user.name && user.password == password then true
    else scanUsers U username password users

/-- `RdpConnection::authenticateLogin` (RdpConnection.cpp:612): the decision and the
calls made on the way. -/
def authenticateLogin (U : QUnicodeTables) (host : Host) (server : Server)
    (rawUsername password : QString) : Bool × List Event :=
  let username := normalizeLoginName U rawUsername
  let entry := Event.authenticateLogin rawUsername password
  let viaUsers (trace : List Event) : Bool × List Event :=
    (scanUsers U username password server.users, trace ++ [Event.users])
  if server.usePAMAuthentication then
    if matchesLoginName U username host.loginName then
      let pam := pamAuthenticate host host.loginName password
      if pam.1 ≥ 0 then (true, entry :: pam.2)
      else viaUsers (entry :: pam.2)
    else viaUsers [entry]
  else viaUsers [entry]

/-! ## The FreeRDP peer -/

/-- The boolean settings the source reads or writes. -/
inductive FreeRDP_Settings_Keys_Bool
  | RdpSecurity | TlsSecurity | NlaSecurity | AudioPlayback | SupportGraphicsPipeline
  | GfxAVC444 | GfxAVC444v2 | GfxH264 | GfxSmallCache | GfxThinClient
  | HasExtendedMouseEvent | HasHorizontalWheel | UnicodeInput | NetworkAutoDetect
  | RefreshRect | RemoteConsoleAudio | RemoteFxCodec | NSCodec
  | FrameMarkerCommandEnabled | SurfaceFrameMarkerEnabled | DesktopResize | AutoLogonEnabled
  deriving DecidableEq, Repr

/-- The 32-bit settings the source reads or writes. -/
inductive FreeRDP_Settings_Keys_UInt32
  | OsMajorType | OsMinorType | ColorDepth | PointerCacheSize
  deriving DecidableEq, Repr

/-- The string settings the source reads. -/
inductive FreeRDP_Settings_Keys_String
  | Username | Password
  deriving DecidableEq, Repr

/-- The part of `rdpSettings` the session touches.  A string setting is the bytes of
its C string (a null string has none). -/
structure rdpSettings where
  bool : FreeRDP_Settings_Keys_Bool → Bool
  uint32 : FreeRDP_Settings_Keys_UInt32 → Nat
  string : FreeRDP_Settings_Keys_String → List Nat

/-! FreeRDP's settings functions are not part of the repository.  On a settings
object they read and write the named field, and a setter answers `TRUE`; that is all
the results below use.  What they answer on a null settings pointer is an assumption
of this model (a getter's zero value, a setter's `FALSE`): no session that
`initializeSession` has given a context has a null settings pointer
(`initializeSession_settings`), and no result below rests on the null case. -/

/-- `freerdp_settings_get_bool`; the `FALSE` for a null settings pointer is assumed. -/
def freerdp_settings_get_bool (settings : Option rdpSettings) (id : FreeRDP_Settings_Keys_Bool) : Bool :=
  match settings with
  | none => false
  | some s => s.bool id

/-- `freerdp_settings_get_uint32`; the `0` for a null settings pointer is assumed. -/
def freerdp_settings_get_uint32 (settings : Option rdpSettings) (id : FreeRDP_Settings_Keys_UInt32) : Nat :=
  match settings with
  | none => 0
  | some s => s.uint32 id

/-- `freerdp_settings_get_string`; the null string for a null settings pointer is
assumed. -/
def freerdp_settings_get_string (settings : Option rdpSettings) (id : FreeRDP_Settings_Keys_String) :
    List Nat :=
  match settings with
  | none => []
  | some s => s.string id

/-- `freerdp_settings_set_bool`: on a settings object it stores the value and
succeeds; the `FALSE` on a null settings pointer is assumed. -/
def freerdp_settings_set_bool (settings : Option rdpSettings) (id : FreeRDP_Settings_Keys_Bool)
    (val : Bool) : Bool × Option rdpSettings :=
  match settings with
  | none => (false, none)
  | some s => (true, some { s with bool := fun k => if k = id then val else s.bool k })

/-- `freerdp_settings_set_uint32`: on a settings object it stores the value (32 bits)
and succeeds; the `FALSE` on a null settings pointer is assumed. -/
def freerdp_settings_set_uint32 (settings : Option rdpSettings) (id : FreeRDP_Settings_Keys_UInt32)
    (val : Nat) : Bool × Option rdpSettings :=
  match settings with
  | none => (false, none)
  | some s => (true, some { s with uint32 := fun k => if k = id then val % 2 ^ 32 else s.uint32 k })

/-- `SEC_WINNT_AUTH_IDENTITY`: three buffers of UTF-16 code units (a null pointer is
`none`) with their lengths. -/
structure SEC_WINNT_AUTH_IDENTITY where
  User : Option (List Nat)
  UserLength : Nat
  Domain : Option (List Nat)
  DomainLength : Nat
  Password : Option (List Nat)
  PasswordLength : Nat

/-- The error info of `context->rdp`. -/
inductive ErrorInfo
  | ERRINFO_NONE | ERRINFO_GRAPHICS_SUBSYSTEM_FAILED
  deriving DecidableEq, Repr

/-- The peer's `rdpContext` (here the session's `PeerContext`). -/
structure rdpContext where
  settings : Option rdpSettings
  errorInfo : ErrorInfo

/-- The `freerdp_peer`; its context is null until `freerdp_peer_context_new_ex` has
succeeded. -/
structure freerdp_peer where
  context : Option rdpContext
  identity : SEC_WINNT_AUTH_IDENTITY

/-! ## The session -/

/-- Position of a state in the `State` enum. -/
def State.rank : State → Nat
  | .Initial => 0
  | .Starting => 1
  | .Running => 2
  | .Streaming => 3
  | .Closed => 4

/-- `RdpConnection::CloseReason`. -/
inductive CloseReason
  | VideoInitFailed | None
  deriving DecidableEq, Repr

/-- `RdpConnection::Private`: the members the modelled methods read or write. -/
structure Private where
  server : Server
  state : State
  peer : Option freerdp_peer
  logonDecisionPresent : Bool
  logonAccepted : Bool

/-- What goes wrong when a method follows a pointer that is null. -/
inductive Fault
  | nullDereference
  deriving DecidableEq, Repr

/-- Following a pointer. -/
def deref {α : Type} (pointer : Option α) : Except Fault α :=
  match pointer with
  | none => Except.error Fault.nullDereference
  | some target => Except.ok target

/-- The session after the constructor (RdpConnection.cpp:287). -/
def construct (server : Server) : Private :=
  { server := server, state := State.Initial, peer := none,
    logonDecisionPresent := false, logonAccepted := false }

/-- `RdpConnection::setState` (RdpConnection.cpp:330). -/
def setState (newState : State) (d : Private) : Private × List Event :=
  if newState = d.state then (d, [])
  else ({ d with state := newState }, [Event.stateChanged newState])

/-- `RdpConnection::close` (RdpConnection.cpp:340). -/
def close (reason : CloseReason) (d : Private) : Except Fault (Private × List Event) := do
  let (d, trace) ← (match reason with
    | CloseReason.VideoInitFailed => do
      let peer ← deref d.peer
      let context ← deref peer.context
      let context := { context with errorInfo := ErrorInfo.ERRINFO_GRAPHICS_SUBSYSTEM_FAILED }
      pure ({ d with peer := some { peer with context := some context } },
        [Event.freerdp_set_error_info])
    | CloseReason.None => pure (d, []) : Except Fault (Private × List Event))
  if d.peer.isSome then -- may be null if creating the peer failed
    pure (d, trace ++ [Event.peerClose])
  else
    pure (d, trace)

/-- `RdpConnection::onCapabilities` (RdpConnection.cpp:548). -/
def onCapabilities (d : Private) : Except Fault (Bool × Private) := do
  let peer ← deref d.peer
  let context ← deref peer.context
  let settings := context.settings
  let store (settings : Option rdpSettings) : Private :=
    { d with peer := some { peer with context := some { context with settings := settings } } }
  -- We only support GraphicsPipeline clients currently
  if !freerdp_settings_get_bool settings FreeRDP_Settings_Keys_Bool.SupportGraphicsPipeline then
    pure (false, d)
  else
    let colorDepth := freerdp_settings_get_uint32 settings FreeRDP_Settings_Keys_UInt32.ColorDepth
    let settings :=
      if colorDepth ≠ 32 then
        (freerdp_settings_set_uint32 settings FreeRDP_Settings_Keys_UInt32.ColorDepth 32).2
      else settings
    if !freerdp_settings_get_bool settings FreeRDP_Settings_Keys_Bool.DesktopResize then
      pure (false, store settings)
    else if freerdp_settings_get_uint32 settings FreeRDP_Settings_Keys_UInt32.PointerCacheSize ≤ 0 then
      pure (false, store settings)
    else
      pure (true, store settings)

/-- `RdpConnection::onActivate` (RdpConnection.cpp:577). -/
def onActivate (d : Private) : Bool × Private := (true, d)

/-- `authIdentityString` (RdpConnection.cpp:184). -/
def authIdentityString (U : QUnicodeTables) (value : Option (List Nat)) (length : Nat) : QString :=
  match value with
  | none => []
  | some buffer => if length = 0 then [] else U.fromUtf16 (buffer.take length)

/-- `QStringLiteral("%1\\%2").arg(domain, user)`. -/
def domainQualified (domain user : QString) : QString := domain ++ 0x5c :: user

/-- The `username` and `password` that `onLogon` decodes from the identity (lines
584-596); a null `identity` is `none`. -/
def logonCredentials (U : QUnicodeTables) (identity : Option SEC_WINNT_AUTH_IDENTITY) :
    QString × QString :=
  match identity with
  | some identity =>
    let user := authIdentityString U identity.User identity.UserLength
    let domain := authIdentityString U identity.Domain identity.DomainLength
    let password := authIdentityString U identity.Password identity.PasswordLength
    (if domain.isEmpty then user else domainQualified domain user, password)
  | none => ([], [])

/-- `RdpConnection::onLogon` (RdpConnection.cpp:582); a null `identity` is `none`. -/
def onLogon (U : QUnicodeTables) (host : Host) (identity : Option SEC_WINNT_AUTH_IDENTITY)
    (_automatic : Bool) (d : Private) : Bool × Private × List Event :=
  let username := (logonCredentials U identity).1
  let password := (logonCredentials U identity).2
  -- Some clients do not provide credentials here and only send them later.
  if username.isEmpty && password.isEmpty then
    (true, { d with logonDecisionPresent := false, logonAccepted := false }, [])
  else
    let verdict := authenticateLogin U host d.server username password
    (verdict.1, { d with logonAccepted := verdict.1, logonDecisionPresent := true }, verdict.2)

/-- `RdpConnection::onPostConnect` (RdpConnection.cpp:642). -/
def onPostConnect (U : QUnicodeTables) (host : Host) (d : Private) :
    Except Fault (Bool × Private × List Event) := do
  let peer ← deref d.peer
  let context ← deref peer.context
  let autoLogon :=
    freerdp_settings_set_bool context.settings FreeRDP_Settings_Keys_Bool.AutoLogonEnabled true
  let settings := autoLogon.2
  let d : Private :=
    { d with peer := some { peer with context := some { context with settings := settings } } }
  if !autoLogon.1 then
    pure (false, d, [])
  else if d.logonDecisionPresent then
    pure (d.logonAccepted, d, [])
  else
    let rawUsername := fromLatin1 (freerdp_settings_get_string settings FreeRDP_Settings_Keys_String.Username)
    let password := fromLatin1 (freerdp_settings_get_string settings FreeRDP_Settings_Keys_String.Password)
    -- Some clients only expose credentials through the peer identity.
    let credentials : QString × QString :=
      if (rawUsername.isEmpty || password.isEmpty) && peer.identity.User.isSome then
        let user := authIdentityString U peer.identity.User peer.identity.UserLength
        let domain := authIdentityString U peer.identity.Domain peer.identity.DomainLength
        let identityPassword := authIdentityString U peer.identity.Password peer.identity.PasswordLength
        (if rawUsername.isEmpty then (if domain.isEmpty then user else domainQualified domain user)
          else rawUsername,
         if password.isEmpty then identityPassword else password)
      else (rawUsername, password)
    let verdict := authenticateLogin U host d.server credentials.1 credentials.2
    pure (verdict.1, d, verdict.2)

/-- `RdpConnection::onClose` (RdpConnection.cpp:677). -/
def onClose (d : Private) : Bool × Private × List Event :=
  let closed := setState State.Closed d
  (true, closed.1, [Event.clipboardClose, Event.videoStreamClose] ++ closed.2)

/-- `RdpConnection::onSuppressOutput` (RdpConnection.cpp:685). -/
def onSuppressOutput (allow : Nat) (d : Private) : Bool × Private × List Event :=
  if allow ≠ 0 then (true, d, [Event.videoStreamSetEnabled true])
  else (true, d, [Event.videoStreamSetEnabled false])

/-! ## The worker loop -/

/-- `WTSVirtualChannelManagerGetDrdynvcState`. -/
inductive DrdynvcState
  | DRDYNVC_STATE_NONE | DRDYNVC_STATE_INITIALIZED | DRDYNVC_STATE_READY | DRDYNVC_STATE_FAILED
  deriving DecidableEq, Repr

/-- What the engine and the subsystems answer during one pass of the loop in `run`;
an answer is read only if the pass gets to ask for it. -/
structure Tick where
  /-- `d->peer->GetEventHandles(...)` -/
  handleCount : Nat
  /-- `d->peer->CheckFileDescriptor(d->peer)` -/
  checkFileDescriptor : Bool
  /-- `d->peer->connected` at line 514 -/
  connected : Bool
  /-- `WTSVirtualChannelManagerIsChannelJoined(..., DRDYNVC_SVC_CHANNEL_NAME)` -/
  drdynvcJoined : Bool
  drdynvcState : DrdynvcState
  /-- `d->videoStream->initialize()` -/
  videoInitialize : Bool
  /-- whether `channelEvent` is signalled by the engine itself at line 530 -/
  channelEventSignalled : Bool
  /-- `WTSVirtualChannelManagerCheckFileDescriptor(...)` -/
  channelManagerCheck : Bool
  /-- `d->peer->connected` at line 535 -/
  connectedAtClipboard : Bool
  /-- `WTSVirtualChannelManagerIsChannelJoined(..., CLIPRDR_SVC_CHANNEL_NAME)` -/
  cliprdrJoined : Bool
  /-- `d->clipboard->initialize()` -/
  clipboardInitialize : Bool

/-- Lines 530-541 of the loop body; `true` when the loop goes on. -/
def passTail (t : Tick) (signalled : Bool) (d : Private) (trace : List Event) :
    Bool × Private × List Event :=
  let checked := t.channelEventSignalled || signalled
  let trace := if checked then trace ++ [Event.WTSVirtualChannelManagerCheckFileDescriptor] else trace
  if checked && !t.channelManagerCheck then (false, d, trace)
  else if t.connectedAtClipboard && t.cliprdrJoined then
    if !t.clipboardInitialize then (false, d, trace ++ [Event.clipboardInitialize])
    else (true, d, trace ++ [Event.clipboardInitialize, Event.networkDetectionUpdate])
  else (true, d, trace ++ [Event.networkDetectionUpdate])

/-- One pass of the loop body of `run` (lines 498-541); `true` when the loop goes on,
`false` on `break`. -/
def pass (t : Tick) (d : Private) : Bool × Private × List Event :=
  if t.handleCount ≤ 0 then (false, d, [])
  else if t.checkFileDescriptor != true then (false, d, [])
  -- Initialize any dynamic channels once the dynamic channel channel is setup.
  else if t.connected && t.drdynvcJoined then
    if t.drdynvcState = DrdynvcState.DRDYNVC_STATE_READY then
      if t.videoInitialize then
        let streaming := setState State.Streaming d
        passTail t false streaming.1
          ([Event.videoStreamInitialize, Event.videoStreamSetEnabled true] ++ streaming.2)
      else (false, d, [Event.videoStreamInitialize])
    else if t.drdynvcState = DrdynvcState.DRDYNVC_STATE_NONE then
      passTail t true d [Event.SetEvent]
    else passTail t false d []
  else passTail t false d []

/-- The `while` loop of `run`: one `Tick` per pass, the list ends where a stop has
been requested. -/
def runLoop : List Tick → Private → Private × List Event
  | [], d => (d, [])
  | t :: ticks, d =>
    let step := pass t d
    if step.1 then
      let rest := runLoop ticks step.2.1
      (rest.1, step.2.2 ++ rest.2)
    else (step.2.1, step.2.2)

/-- `RdpConnection::run` (RdpConnection.cpp:490). -/
def run (ticks : List Tick) (d : Private) : Except Fault (Private × List Event) := do
  let peer ← deref d.peer
  let _context ← deref peer.context
  let running := setState State.Running d
  let looped := runLoop ticks running.1
  let closed := onClose looped.1
  pure (closed.2.1, running.2 ++ looped.2 ++ closed.2.2)

/-- What the engine answers during `initialize`. -/
structure Setup where
  /-- `freerdp_peer_new`: the new peer's identity, or failure -/
  peer_new : Option SEC_WINNT_AUTH_IDENTITY
  /-- `freerdp_peer_context_new_ex`: the settings of the new context, or failure -/
  context_new : Option rdpSettings
  /-- `freerdp_certificate_new_from_file` found a certificate -/
  certificate : Bool
  /-- `freerdp_key_new_from_file` found a key -/
  key : Bool
  /-- `nlaEnabledFromEnvironment()` -/
  enableNla : Bool
  /-- `d->peer->Initialize(d->peer)` -/
  peerInitialize : Bool

/-- `OSMAJORTYPE_UNIX`. -/
def OSMAJORTYPE_UNIX : Nat := 0x0004

/-- `OSMINORTYPE_PSEUDO_XSERVER`. -/
def OSMINORTYPE_PSEUDO_XSERVER : Nat := 0x0008

/-- The settings policy of `initialize` (lines 421-463), written in order. -/
def configure (enableNla : Bool) (settings : rdpSettings) : rdpSettings :=
  let bools : List (FreeRDP_Settings_Keys_Bool × Bool) :=
    [(.RdpSecurity, false), (.TlsSecurity, true), (.NlaSecurity, enableNla), (.AudioPlayback, false),
     (.SupportGraphicsPipeline, true), (.GfxAVC444, false), (.GfxAVC444v2, false), (.GfxH264, true),
     (.GfxSmallCache, false), (.GfxThinClient, false), (.HasExtendedMouseEvent, true),
     (.HasHorizontalWheel, true), (.UnicodeInput, true), (.NetworkAutoDetect, true),
     (.RefreshRect, true), (.RemoteConsoleAudio, true), (.RemoteFxCodec, false), (.NSCodec, false),
     (.FrameMarkerCommandEnabled, true), (.SurfaceFrameMarkerEnabled, true)]
  { settings with
    bool := fun k => match bools.lookup k with
      | some v => v
      | none => settings.bool k
    uint32 := fun k => match k with
      | .OsMajorType => OSMAJORTYPE_UNIX
      | .OsMinorType => OSMINORTYPE_PSEUDO_XSERVER
      | .ColorDepth => 32
      | .PointerCacheSize => settings.uint32 .PointerCacheSize }

/-- `RdpConnection::initialize` (RdpConnection.cpp:380), named `initializeSession` here;
`true` when the worker
thread has been started. -/
def initializeSession (setup : Setup) (d : Private) : Bool × Private × List Event :=
  let starting := setState State.Starting d
  let d := starting.1
  match setup.peer_new with
  | none => (false, { d with peer := none }, starting.2)
  | some identity =>
    match setup.context_new with
    | none => (false, { d with peer := some { context := none, identity := identity } }, starting.2)
    | some settings =>
      let withSettings (settings : rdpSettings) : Private :=
        { d with peer := some { context := some { settings := some settings,
                                                  errorInfo := ErrorInfo.ERRINFO_NONE },
                                identity := identity } }
      if !setup.certificate then (false, withSettings settings, starting.2)
      else if !setup.key then (false, withSettings settings, starting.2)
      else if !setup.peerInitialize then
        (false, withSettings (configure setup.enableNla settings), starting.2)
      else (true, withSettings (configure setup.enableNla settings), starting.2)

/-- A session from construction to the end of its worker: the constructor, the queued
`initialize`, and, when that started the worker, `run`. -/
def session (server : Server) (setup : Setup) (ticks : List Tick) :
    Except Fault (Private × List Event) :=
  let initialized := initializeSession setup (construct server)
  if initialized.1 then do
    let ran ← run ticks initialized.2.1
    pure (ran.1, initialized.2.2 ++ ran.2)
  else pure initialized.2

/-- The states announced in a trace, in order. -/
def announced : List Event → List State
  | [] => []
  | Event.stateChanged state :: trace => state :: announced trace
  | _ :: trace => announced trace

/-- Tables that fold and classify nothing beyond what Qt decides inline, with a
decoder that passes well-formed UTF-16 through; used for concrete runs. -/
def plainTables : QUnicodeTables :=
  { caseFold := fun c => c, isSpace_helper := fun _ => false, fromUtf16 := fun units => units }

/-- The settings a session's peer context points to, `none` where a pointer on the
way is null. -/
def sessionSettings (d : Private) : Option rdpSettings :=
  d.peer.bind (fun peer => peer.context.bind (fun context => context.settings))

/-- The session `d` with its peer `peer`, context `context`, and the given settings. -/
def withSettings (d : Private) (peer : freerdp_peer) (context : rdpContext)
    (settings : rdpSettings) : Private :=
  { d with peer := some { peer with context := some { context with settings := some settings } } }

/-- The tick reports the dynamic-channel transport as ready. -/
def Tick.ready (t : Tick) : Bool := decide (t.drdynvcState = DrdynvcState.DRDYNVC_STATE_READY)

/-- Count of the ready-episodes that begin in a list of ticks; `previousReady` tells
whether the tick before the list reported ready. -/
def readyEpisodesFrom (previousReady : Bool) : List Tick → Nat
  | [] => 0
  | t :: ticks => (if t.ready && !previousReady then 1 else 0) + readyEpisodesFrom t.ready ticks

/-- Number of ready-episodes of a run: the maximal runs of consecutive ticks on which
the dynamic-channel transport reports ready. -/
def readyEpisodes (ticks : List Tick) : Nat := readyEpisodesFrom false ticks

/-- The pass asks the video stream to initialize: it gets past the transport checks
and finds the peer connected, the dynamic channel joined and its state ready. -/
def Tick.reachesVideo (t : Tick) : Bool :=
  decide (0 < t.handleCount) && t.checkFileDescriptor && t.connected && t.drdynvcJoined && t.ready

/-! ## Concrete data for the worked runs -/

/-- A host whose process runs as `krdp` and whose login service accepts exactly the
password `secret` for it. -/
def sampleHost : Host :=
  { loginName := QStringLiteral "krdp"
    pam_start := PAM_SUCCESS
    pam_authenticate := fun user password =>
      if user = QStringLiteral "krdp" ∧ password = QStringLiteral "secret" then PAM_SUCCESS else 7
    pam_acct_mgmt := fun _ _ => PAM_SUCCESS }

/-- A user list with two entries named `bob`. -/
def twoBobs : List User :=
  [{ name := QStringLiteral "bob", password := QStringLiteral "first" },
   { name := QStringLiteral "bob", password := QStringLiteral "second" }]

/-- An identity with a user `bob` and the password `first`, no domain. -/
def bobIdentity : SEC_WINNT_AUTH_IDENTITY :=
  { User := some (QStringLiteral "bob"), UserLength := 3
    Domain := none, DomainLength := 0
    Password := some (QStringLiteral "first"), PasswordLength := 5 }

/-- An identity with a user `bob` and a password that no entry of `twoBobs` has. -/
def strangerIdentity : SEC_WINNT_AUTH_IDENTITY :=
  { User := some (QStringLiteral "bob"), UserLength := 3
    Domain := none, DomainLength := 0
    Password := some (QStringLiteral "wrong"), PasswordLength := 5 }

/-- An identity whose buffers are present but of length zero. -/
def emptyIdentity : SEC_WINNT_AUTH_IDENTITY :=
  { User := some [], UserLength := 0
    Domain := none, DomainLength := 0
    Password := some [], PasswordLength := 0 }

/-- Settings of a client that supports everything asked for and sent the user name
`bob` with the password `second`. -/
def sampleSettings : rdpSettings :=
  { bool := fun _ => true
    uint32 := fun k => match k with
      | .ColorDepth => 16
      | .PointerCacheSize => 25
      | _ => 0
    string := fun k => match k with
      | .Username => QStringLiteral "bob"
      | .Password => QStringLiteral "second" }

/-- A server with the two entries named `bob` and no system login. -/
def sampleServer : Server := { usePAMAuthentication := false, users := twoBobs }

/-- A running session of `sampleServer` whose peer context has the given settings
pointer. -/
def sampleSession (settings : Option rdpSettings) : Private :=
  { server := sampleServer, state := State.Running,
    peer := some { context := some { settings := settings, errorInfo := ErrorInfo.ERRINFO_NONE },
                   identity := emptyIdentity },
    logonDecisionPresent := false, logonAccepted := false }

/-- A tick on which everything works and the dynamic channel is ready. -/
def readyTick : Tick :=
  { handleCount := 1, checkFileDescriptor := true, connected := true, drdynvcJoined := true,
    drdynvcState := DrdynvcState.DRDYNVC_STATE_READY, videoInitialize := true,
    channelEventSignalled := false, channelManagerCheck := true,
    connectedAtClipboard := true, cliprdrJoined := false, clipboardInitialize := true }

/-- An engine that sets the session up without failure. -/
def goodSetup : Setup :=
  { peer_new := some emptyIdentity, context_new := some sampleSettings,
    certificate := true, key := true, enableNla := false, peerInitialize := true }

/-- An identity whose three buffers are null. -/
def nullIdentity : SEC_WINNT_AUTH_IDENTITY :=
  { User := none, UserLength := 0, Domain := none, DomainLength := 0,
    Password := none, PasswordLength := 0 }

/-- Settings as `sampleSettings`, but without user name and password. -/
def anonymousSettings : rdpSettings := { sampleSettings with string := fun _ => [] }

/-- A peer with `anonymousSettings` and a null identity. -/
def anonymousPeer : freerdp_peer :=
  { context := some { settings := some anonymousSettings, errorInfo := ErrorInfo.ERRINFO_NONE },
    identity := nullIdentity }

/-! ## Facts about the string model -/

theorem indexOfFrom_of_not_mem (ch : QChar) (s : QString) (i : Nat) (h : ch ∉ s) :
    indexOfFrom ch s i = -1 := by
  induction s generalizing i with
  | nil => rfl
  | cons c cs ih =>
    have hc : c ≠ ch := fun e => h (by simp [e])
    have hcs : ch ∉ cs := fun m => h (List.mem_cons_of_mem _ m)
    simp [indexOfFrom, hc, ih _ hcs]

theorem indexOfFrom_of_mem (ch : QChar) (s : QString) (i : Nat) (h : ch ∈ s) :
    indexOfFrom ch s i = ((i + (s.takeWhile (fun c => c != ch)).length : Nat) : Int) := by
  induction s generalizing i with
  | nil => simp at h
  | cons c cs ih =>
    by_cases hc : c = ch
    · simp [indexOfFrom, hc]
    · have hcs : ch ∈ cs := by
        rcases List.mem_cons.1 h with e | m
        · exact absurd e.symm hc
        · exact m
      simp [indexOfFrom, hc, ih _ hcs]
      omega

theorem lastIndexOfFrom_of_not_mem (ch : QChar) (s : QString) (i : Nat) (found : Int)
    (h : ch ∉ s) : lastIndexOfFrom ch s i found = found := by
  induction s generalizing i found with
  | nil => rfl
  | cons c cs ih =>
    have hc : c ≠ ch := fun e => h (by simp [e])
    have hcs : ch ∉ cs := fun m => h (List.mem_cons_of_mem _ m)
    simp [lastIndexOfFrom, hc, ih _ _ hcs]

theorem lastIndexOfFrom_append (ch : QChar) (pre rest : QString) (i : Nat) (found : Int) :
    lastIndexOfFrom ch (pre ++ rest) i found
      = lastIndexOfFrom ch rest (i + pre.length) (lastIndexOfFrom ch pre i found) := by
  induction pre generalizing i found with
  | nil => simp [lastIndexOfFrom]
  | cons c cs ih =>
    have e : i + 1 + cs.length = i + (cs.length + 1) := by omega
    show lastIndexOfFrom ch (cs ++ rest) (i + 1) _ = _
    rw [ih, e]
    rfl

theorem lastIndexOfFrom_lt (ch : QChar) (s : QString) (i : Nat) (found : Int)
    (h : found < (i : Int)) : lastIndexOfFrom ch s i found < ((i + s.length : Nat) : Int) := by
  induction s generalizing i found with
  | nil => simpa [lastIndexOfFrom] using h
  | cons c cs ih =>
    have step : (if c = ch then (i : Int) else found) < ((i + 1 : Nat) : Int) := by
      split <;> omega
    have := ih (i + 1) _ step
    simp only [lastIndexOfFrom, List.length_cons]
    have e : i + (cs.length + 1) = i + 1 + cs.length := by omega
    rw [e]
    exact this

/-- The last occurrence of `sep` in `pre ++ sep :: post`, when `post` has none. -/
theorem lastIndexOf_split (sep : QChar) (pre post : QString) (h : sep ∉ post) :
    lastIndexOf (pre ++ sep :: post) sep = (pre.length : Int) := by
  unfold lastIndexOf
  rw [lastIndexOfFrom_append]
  simp [lastIndexOfFrom, lastIndexOfFrom_of_not_mem _ _ _ _ h]

/-- A character that occurs neither at nor after position `pre.length` is last seen
before that position, if at all. -/
theorem lastIndexOf_before (ch sep : QChar) (pre post : QString) (hsep : sep ≠ ch) (h : ch ∉ post) :
    lastIndexOf (pre ++ sep :: post) ch < (pre.length : Int) := by
  unfold lastIndexOf
  rw [lastIndexOfFrom_append]
  have hm : ch ∉ sep :: post := by
    intro m
    rcases List.mem_cons.1 m with e | m
    · exact hsep e.symm
    · exact h m
  rw [lastIndexOfFrom_of_not_mem _ _ _ _ hm]
  have := lastIndexOfFrom_lt ch pre 0 (-1) (by omega)
  simpa using this

theorem trimmed_eq (U : QUnicodeTables) (s : QString) :
    trimmed U s = (s.rdropWhile (isSpace U)).dropWhile (isSpace U) := rfl

/-- Trimming a trimmed string changes nothing. -/
theorem trimmed_trimmed (U : QUnicodeTables) (s : QString) :
    trimmed U (trimmed U s) = trimmed U s := by
  simp only [trimmed_eq]
  have hlast : ((s.rdropWhile (isSpace U)).dropWhile (isSpace U)).rdropWhile (isSpace U)
      = (s.rdropWhile (isSpace U)).dropWhile (isSpace U) := by
    rw [List.rdropWhile_eq_self_iff]
    intro hne
    have hsuf : (s.rdropWhile (isSpace U)).dropWhile (isSpace U) <:+ s.rdropWhile (isSpace U) :=
      List.dropWhile_suffix _
    rw [hsuf.getLast hne]
    exact List.rdropWhile_last_not (isSpace U) s (hsuf.ne_nil hne)
  rw [hlast, List.dropWhile_idempotent]

theorem take_length_takeWhile (p : QChar → Bool) (s : QString) :
    s.take (s.takeWhile p).length = s.takeWhile p := by
  induction s with
  | nil => rfl
  | cons c cs ih =>
    by_cases hc : p c
    · simp [List.takeWhile_cons, hc, ih]
    · simp [List.takeWhile_cons, hc]

/-- Only the empty string compares equal to the empty string. -/
theorem compareCaseInsensitive_nil_left (U : QUnicodeTables) (c : QString) :
    compareCaseInsensitive U [] c = 0 ↔ c = [] := by
  cases c <;> simp [compareCaseInsensitive, ucstricmp]

theorem ucstricmp_eq_zero_iff (U : QUnicodeTables) (a b : QString) (alast blast : Nat) :
    ucstricmp U a b alast blast = 0 ↔ folded U a alast = folded U b blast := by
  induction a generalizing b alast blast with
  | nil => cases b <;> simp [ucstricmp, folded]
  | cons x xs ih =>
    cases b with
    | nil => simp [ucstricmp, folded]
    | cons y ys =>
      by_cases hxy : foldCase U x alast = foldCase U y blast
      · simp [ucstricmp, folded, hxy, ih]
      · have hdiff : (foldCase U x alast : Int) - (foldCase U y blast : Int) ≠ 0 := by
          intro h
          apply hxy
          omega
        simp [ucstricmp, folded, hxy, hdiff]

/-- Two strings compare equal case-insensitively exactly when their case-folded forms
are the same sequence. -/
theorem compareCaseInsensitive_eq_zero_iff (U : QUnicodeTables) (a b : QString) :
    compareCaseInsensitive U a b = 0 ↔ folded U a 0 = folded U b 0 :=
  ucstricmp_eq_zero_iff U a b 0 0

/-! ## Login names: the claims -/

/-- C1: `matchesLoginName(a, c)` is true exactly when `c` is non-empty and either `a`
equals `c` case-insensitively, or `a` contains an `@` and the part of `a` before its
first `@` equals `c` case-insensitively.  In particular nothing matches the empty
configured name, `"Bob"` and `"bob@EXAMPLE.com"` match `"bob"`, and `"bob@x"` does not
match `"bobx"`. -/
theorem matchesLoginName_iff (U : QUnicodeTables) :
    (∀ a c : QString, matchesLoginName U a c = true ↔
      (c ≠ [] ∧ (compareCaseInsensitive U a c = 0 ∨
        (0x40 ∈ a ∧ compareCaseInsensitive U (a.takeWhile (fun u => u != 0x40)) c = 0))))
    ∧ (∀ a : QString, matchesLoginName U a (QStringLiteral "") = false)
    ∧ matchesLoginName U (QStringLiteral "Bob") (QStringLiteral "bob") = true
    ∧ matchesLoginName U (QStringLiteral "bob@EXAMPLE.com") (QStringLiteral "bob") = true
    ∧ matchesLoginName U (QStringLiteral "alice") (QStringLiteral "") = false
    ∧ matchesLoginName U (QStringLiteral "bob@x") (QStringLiteral "bobx") = false := by
  refine ⟨?_, fun a => rfl, rfl, rfl, rfl, rfl⟩
  intro a c
  cases c with
  | nil => simp [matchesLoginName]
  | cons c0 cs =>
    by_cases heq : compareCaseInsensitive U a (c0 :: cs) = 0
    · simp [matchesLoginName, heq]
    · by_cases hat : 0x40 ∈ a
      · have hidx : indexOf a 0x40 = ((a.takeWhile (fun u => u != 0x40)).length : Int) := by
          have := indexOfFrom_of_mem 0x40 a 0 hat
          simpa [indexOf] using this
        by_cases hpos : 0 < (a.takeWhile (fun u => u != 0x40)).length
        · have hleft : left a (indexOf a 0x40) = a.takeWhile (fun u => u != 0x40) := by
            rw [hidx]
            simp [left, take_length_takeWhile]
          have hgt : indexOf a 0x40 > 0 := by rw [hidx]; exact_mod_cast hpos
          simp [matchesLoginName, heq, hgt, hleft, hat]
        · have hnil : a.takeWhile (fun u => u != 0x40) = [] :=
            List.length_eq_zero.1 (by omega)
          have hngt : ¬ indexOf a 0x40 > 0 := by rw [hidx, hnil]; simp
          have hne : ¬ compareCaseInsensitive U [] (c0 :: cs) = 0 := by
            rw [compareCaseInsensitive_nil_left]; simp
          simp [matchesLoginName, heq, hngt, hnil, hne]
      · have hidx : indexOf a 0x40 = -1 := indexOfFrom_of_not_mem 0x40 a 0 hat
        simp [matchesLoginName, heq, hidx, hat]

/-- C2: with `t` the trimmed `s`: if `t` has a backslash or slash and something
follows the last one, `normalizeLoginName(s)` is the trimmed rest of `t` after that
last separator; if nothing follows the last separator, or `t` has no separator, it is
`t` itself.  `"DOMAIN\bob"` gives `"bob"`, `"bob"` gives `"bob"`, `"  bob  "` gives
`"bob"`, and a lone separator is returned unchanged. -/
theorem normalizeLoginName_spec (U : QUnicodeTables) :
    (∀ (s pre post : QString) (sep : QChar),
        trimmed U s = pre ++ sep :: post → (sep = 0x5c ∨ sep = 0x2f) →
        0x5c ∉ post → 0x2f ∉ post → post ≠ [] →
        normalizeLoginName U s = trimmed U post)
    ∧ (∀ (s pre : QString) (sep : QChar),
        trimmed U s = pre ++ [sep] → (sep = 0x5c ∨ sep = 0x2f) →
        normalizeLoginName U s = trimmed U s)
    ∧ (∀ s : QString, 0x5c ∉ trimmed U s → 0x2f ∉ trimmed U s →
        normalizeLoginName U s = trimmed U s)
    ∧ normalizeLoginName U (QStringLiteral "DOMAIN\\bob") = QStringLiteral "bob"
    ∧ normalizeLoginName U (QStringLiteral "bob") = QStringLiteral "bob"
    ∧ normalizeLoginName U (QStringLiteral "  bob  ") = QStringLiteral "bob"
    ∧ normalizeLoginName U (QStringLiteral "\\") = QStringLiteral "\\"
    ∧ normalizeLoginName U (QStringLiteral " DOMAIN/ ") = QStringLiteral "DOMAIN/" := by
  have hmax : ∀ (pre post : QString) (sep : QChar), (sep = 0x5c ∨ sep = 0x2f) →
      0x5c ∉ post → 0x2f ∉ post →
      max (lastIndexOf (pre ++ sep :: post) 0x5c) (lastIndexOf (pre ++ sep :: post) 0x2f)
        = (pre.length : Int) := by
    intro pre post sep hsep h5c h2f
    rcases hsep with e | e
    · subst e
      rw [lastIndexOf_split _ _ _ h5c]
      exact max_eq_left (le_of_lt (lastIndexOf_before 0x2f 0x5c pre post (by decide) h2f))
    · subst e
      rw [lastIndexOf_split _ _ _ h2f]
      exact max_eq_right (le_of_lt (lastIndexOf_before 0x5c 0x2f pre post (by decide) h5c))
  refine ⟨?_, ?_, ?_, rfl, rfl, rfl, rfl, rfl⟩
  · intro s pre post sep ht hsep h5c h2f hpost
    have hlen : 0 < post.length := List.length_pos.2 hpost
    have hcond : (pre.length : Int) ≥ 0 ∧ (pre.length : Int) + 1 < size (pre ++ sep :: post) := by
      constructor
      · omega
      · simp only [size, List.length_append, List.length_cons]
        push_cast
        omega
    have hmid : mid (pre ++ sep :: post) ((pre.length : Int) + 1) = post := by
      have e : ((pre.length : Int) + 1).toNat = pre.length + 1 := by omega
      simp only [mid, e]
      rw [List.drop_append_eq_append_drop]
      simp
    simp only [normalizeLoginName, ht, hmax pre post sep hsep h5c h2f, hcond, and_self, if_true, hmid]
  · intro s pre sep ht hsep
    have hcond : ¬ ((pre.length : Int) ≥ 0 ∧ (pre.length : Int) + 1 < size (pre ++ [sep])) := by
      simp only [size, List.length_append, List.length_cons, List.length_nil]
      push_cast
      omega
    have := hmax pre [] sep hsep (by simp) (by simp)
    simp only [normalizeLoginName, ht, this, hcond, if_false]
    rw [← ht, trimmed_trimmed]
  · intro s h5c h2f
    have e5c : lastIndexOf (trimmed U s) 0x5c = -1 := lastIndexOfFrom_of_not_mem _ _ _ _ h5c
    have e2f : lastIndexOf (trimmed U s) 0x2f = -1 := lastIndexOfFrom_of_not_mem _ _ _ _ h2f
    simp only [normalizeLoginName, e5c, e2f]
    simp [trimmed_trimmed]

/-- C2 at `" A/b "`: the name after the slash. -/
theorem normalizeLoginName_spec_witness :
    normalizeLoginName plainTables (QStringLiteral " A/b ") = trimmed plainTables (QStringLiteral "b")
    ∧ normalizeLoginName plainTables (QStringLiteral " A/") = trimmed plainTables (QStringLiteral " A/")
    ∧ normalizeLoginName plainTables (QStringLiteral " b") = trimmed plainTables (QStringLiteral " b") :=
  ⟨(normalizeLoginName_spec plainTables).1 (QStringLiteral " A/b ") (QStringLiteral "A")
      (QStringLiteral "b") 0x2f rfl (Or.inr rfl) (by decide) (by decide) (by decide),
   (normalizeLoginName_spec plainTables).2.1 (QStringLiteral " A/") (QStringLiteral "A") 0x2f rfl
      (Or.inr rfl),
   (normalizeLoginName_spec plainTables).2.2.1 (QStringLiteral " b") (by decide) (by decide)⟩

/-! ## The credential verifier -/

/-- The scan of the user list succeeds exactly when some entry with a non-empty
password has a matching name and the supplied password. -/
theorem scanUsers_iff (U : QUnicodeTables) (username password : QString) (users : List User) :
    scanUsers U username password users = true ↔
      ∃ user ∈ users, user.password ≠ [] ∧ matchesLoginName U username user.name = true
        ∧ user.password = password := by
  induction users with
  | nil => simp [scanUsers]
  | cons user users ih =>
    by_cases hempty : user.password = []
    · simp [scanUsers, hempty, ih]
    · by_cases hm : matchesLoginName U username user.name = true
      · by_cases hp : user.password = password
        · subst hp
          simp [scanUsers, hempty, hm]
        · simp [scanUsers, hempty, hm, hp, ih]
      · simp [scanUsers, hempty, hm, ih]

/-- C3, as stated, fails: with two entries named `bob` and the system login off, the
password of the later entry is accepted although it differs from the first entry's. -/
theorem authenticateLogin_accepts_later_entry :
    (authenticateLogin plainTables sampleHost { usePAMAuthentication := false, users := twoBobs }
        (QStringLiteral "bob") (QStringLiteral "second")).1 = true
    ∧ twoBobs.map (fun user => matchesLoginName plainTables
        (normalizeLoginName plainTables (QStringLiteral "bob")) user.name) = [true, true]
    ∧ twoBobs.map (fun user => user.password) = [QStringLiteral "first", QStringLiteral "second"]
    ∧ QStringLiteral "second" ≠ QStringLiteral "first" := by
  refine ⟨by rfl, by rfl, by rfl, by decide⟩

/-- C3, amended: when the system-login path does not succeed, `authenticateLogin`
accepts the supplied password exactly when it is the non-empty password of some
configured entry whose name matches the normalized login name, whatever the position
of that entry in the list. -/
theorem authenticateLogin_list_iff (U : QUnicodeTables) (host : Host) (server : Server)
    (rawUsername password : QString)
    (hsystem : ¬ (server.usePAMAuthentication = true
      ∧ matchesLoginName U (normalizeLoginName U rawUsername) host.loginName = true
      ∧ (pamAuthenticate host host.loginName password).1 ≥ 0)) :
    (authenticateLogin U host server rawUsername password).1 = true ↔
      ∃ user ∈ server.users, user.password ≠ []
        ∧ matchesLoginName U (normalizeLoginName U rawUsername) user.name = true
        ∧ user.password = password := by
  rw [← scanUsers_iff]
  unfold authenticateLogin
  by_cases hmode : server.usePAMAuthentication = true
  · by_cases hname : matchesLoginName U (normalizeLoginName U rawUsername) host.loginName = true
    · have hpam : ¬ (pamAuthenticate host host.loginName password).1 ≥ 0 :=
        fun h => hsystem ⟨hmode, hname, h⟩
      simp [hmode, hname, hpam]
    · simp [hmode, hname]
  · simp [hmode]

/-- C3, amended, on the list with two entries named `bob`: each of the two passwords
is accepted, a third is not. -/
theorem authenticateLogin_list_iff_witness :
    ((authenticateLogin plainTables sampleHost { usePAMAuthentication := false, users := twoBobs }
        (QStringLiteral "bob") (QStringLiteral "second")).1 = true ↔
      ∃ user ∈ twoBobs, user.password ≠ []
        ∧ matchesLoginName plainTables (normalizeLoginName plainTables (QStringLiteral "bob"))
            user.name = true
        ∧ user.password = QStringLiteral "second") :=
  authenticateLogin_list_iff plainTables sampleHost
    { usePAMAuthentication := false, users := twoBobs }
    (QStringLiteral "bob") (QStringLiteral "second") (by decide)

/-- C4: with system-login authentication enabled, a normalized name that matches the
login name of the process, and a login service whose start, authentication and
account check all succeed, `authenticateLogin` returns true after the three PAM calls
and without reading the user list, whatever that list holds. -/
theorem authenticateLogin_system_first (U : QUnicodeTables) (host : Host) (server : Server)
    (rawUsername password : QString)
    (hmode : server.usePAMAuthentication = true)
    (hname : matchesLoginName U (normalizeLoginName U rawUsername) host.loginName = true)
    (hstart : host.pam_start = PAM_SUCCESS)
    (hauth : host.pam_authenticate (cString (toLatin1 host.loginName)) (cString (toLatin1 password))
      = PAM_SUCCESS)
    (hacct : host.pam_acct_mgmt (cString (toLatin1 host.loginName)) (cString (toLatin1 password))
      = PAM_SUCCESS) :
    authenticateLogin U host server rawUsername password
      = (true, [Event.authenticateLogin rawUsername password, Event.pam_start,
          Event.pam_authenticate (cString (toLatin1 host.loginName)) (cString (toLatin1 password)),
          Event.pam_acct_mgmt])
    ∧ Event.users ∉ (authenticateLogin U host server rawUsername password).2 := by
  have hpam : pamAuthenticate host host.loginName password
      = (1, [Event.pam_start,
          Event.pam_authenticate (cString (toLatin1 host.loginName)) (cString (toLatin1 password)),
          Event.pam_acct_mgmt]) := by
    simp [pamAuthenticate, hstart, hauth, hacct]
  have hrun : authenticateLogin U host server rawUsername password
      = (true, [Event.authenticateLogin rawUsername password, Event.pam_start,
          Event.pam_authenticate (cString (toLatin1 host.loginName)) (cString (toLatin1 password)),
          Event.pam_acct_mgmt]) := by
    simp [authenticateLogin, hmode, hname, hpam]
  refine ⟨hrun, ?_⟩
  rw [hrun]
  simp

/-- C4 on the sample host: `KRDP\krdp` with the system password `secret` is accepted
although the user list holds `krdp` with another password. -/
theorem authenticateLogin_system_first_witness :
    authenticateLogin plainTables sampleHost
        { usePAMAuthentication := true,
          users := [{ name := QStringLiteral "krdp", password := QStringLiteral "other" }] }
        (QStringLiteral "KRDP\\krdp") (QStringLiteral "secret")
      = (true, [Event.authenticateLogin (QStringLiteral "KRDP\\krdp") (QStringLiteral "secret"),
          Event.pam_start,
          Event.pam_authenticate (cString (toLatin1 sampleHost.loginName))
            (cString (toLatin1 (QStringLiteral "secret"))),
          Event.pam_acct_mgmt])
    ∧ Event.users ∉ (authenticateLogin plainTables sampleHost
        { usePAMAuthentication := true,
          users := [{ name := QStringLiteral "krdp", password := QStringLiteral "other" }] }
        (QStringLiteral "KRDP\\krdp") (QStringLiteral "secret")).2 :=
  authenticateLogin_system_first plainTables sampleHost _ _ _ rfl (by rfl) rfl (by decide) rfl

/-! ## The negotiation callbacks -/

/-- A session to which `initializeSession` has given a peer context has settings. -/
theorem initializeSession_settings (setup : Setup) (server : Server) (peer : freerdp_peer)
    (context : rdpContext)
    (hpeer : (initializeSession setup (construct server)).2.1.peer = some peer)
    (hcontext : peer.context = some context) : context.settings.isSome = true := by
  unfold initializeSession at hpeer
  cases hnew : setup.peer_new with
  | none => simp [hnew] at hpeer
  | some identity =>
    cases hctx : setup.context_new with
    | none =>
      simp [hnew, hctx] at hpeer
      subst hpeer
      simp at hcontext
    | some settings =>
      simp only [hnew, hctx] at hpeer
      split_ifs at hpeer <;>
        · simp at hpeer
          subst hpeer
          simp at hcontext
          subst hcontext
          rfl

/-- C5: a decision that `onLogon` records is the value it returned; and once a
decision is recorded (accepted or rejected), `onPostConnect` returns exactly the
recorded value, invokes neither `authenticateLogin` nor anything else of the trace,
and keeps the recorded decision, whatever user name and password the engine settings
and the peer identity hold then. -/
theorem onPostConnect_recorded_decision (U : QUnicodeTables) (host : Host) :
    (∀ (identity : Option SEC_WINNT_AUTH_IDENTITY) (automatic : Bool) (d : Private),
      (onLogon U host identity automatic d).2.1.logonDecisionPresent = true →
      (onLogon U host identity automatic d).2.1.logonAccepted
        = (onLogon U host identity automatic d).1)
    ∧ (∀ (d : Private) (peer : freerdp_peer) (context : rdpContext) (settings : rdpSettings),
      d.peer = some peer → peer.context = some context → context.settings = some settings →
      d.logonDecisionPresent = true →
      ∃ d', onPostConnect U host d = Except.ok (d.logonAccepted, d', [])
        ∧ d'.logonDecisionPresent = true ∧ d'.logonAccepted = d.logonAccepted)
    ∧ (∀ (identity : Option SEC_WINNT_AUTH_IDENTITY) (automatic : Bool) (d : Private)
        (peer : freerdp_peer) (context : rdpContext) (settings : rdpSettings),
      peer.context = some context → context.settings = some settings →
      (onLogon U host identity automatic d).2.1.logonDecisionPresent = true →
      ∃ d', onPostConnect U host
          { (onLogon U host identity automatic d).2.1 with peer := some peer }
        = Except.ok ((onLogon U host identity automatic d).1, d', [])) := by
  have hrecords : ∀ (identity : Option SEC_WINNT_AUTH_IDENTITY) (automatic : Bool) (d : Private),
      (onLogon U host identity automatic d).2.1.logonDecisionPresent = true →
      (onLogon U host identity automatic d).2.1.logonAccepted
        = (onLogon U host identity automatic d).1 := by
    intro identity automatic d
    by_cases hdefer : ((logonCredentials U identity).1.isEmpty
        && (logonCredentials U identity).2.isEmpty) = true
    · simp [onLogon, hdefer]
    · simp [onLogon, hdefer]
  have hreturns : ∀ (d : Private) (peer : freerdp_peer) (context : rdpContext)
      (settings : rdpSettings),
      d.peer = some peer → peer.context = some context → context.settings = some settings →
      d.logonDecisionPresent = true →
      ∃ d', onPostConnect U host d = Except.ok (d.logonAccepted, d', [])
        ∧ d'.logonDecisionPresent = true ∧ d'.logonAccepted = d.logonAccepted := by
    intro d peer context settings hpeer hcontext hsettings hrecorded
    simp [onPostConnect, deref, hpeer, hcontext, hsettings, freerdp_settings_set_bool, hrecorded,
      bind, Except.bind, pure, Except.pure]
  refine ⟨hrecords, hreturns, ?_⟩
  intro identity automatic d peer context settings hcontext hsettings hrecorded
  obtain ⟨d', hd', _, _⟩ := hreturns
    { (onLogon U host identity automatic d).2.1 with peer := some peer } peer context settings
    rfl hcontext hsettings hrecorded
  refine ⟨d', ?_⟩
  rw [hd']
  have := hrecords identity automatic d hrecorded
  simp only [this]

/-- C5 on the sample session, whose settings hold `bob` with the valid password
`second`: after `onLogon` has accepted `bob` / `first`, `onPostConnect` returns true,
and after `onLogon` has rejected `bob` / `wrong`, `onPostConnect` returns false; the
trace is empty both times. -/
theorem onPostConnect_recorded_decision_witness :
    (∃ d', onPostConnect plainTables sampleHost
        (onLogon plainTables sampleHost (some bobIdentity) false (sampleSession (some sampleSettings))).2.1
      = Except.ok (true, d', [])
      ∧ d'.logonDecisionPresent = true ∧ d'.logonAccepted = true)
    ∧ (∃ d', onPostConnect plainTables sampleHost
        (onLogon plainTables sampleHost (some strangerIdentity) false
          (sampleSession (some sampleSettings))).2.1
      = Except.ok (false, d', [])
      ∧ d'.logonDecisionPresent = true ∧ d'.logonAccepted = false) :=
  ⟨(onPostConnect_recorded_decision plainTables sampleHost).2.1
      (onLogon plainTables sampleHost (some bobIdentity) false (sampleSession (some sampleSettings))).2.1
      { context := some { settings := some sampleSettings, errorInfo := ErrorInfo.ERRINFO_NONE },
        identity := emptyIdentity }
      { settings := some sampleSettings, errorInfo := ErrorInfo.ERRINFO_NONE } sampleSettings
      rfl rfl rfl rfl,
   (onPostConnect_recorded_decision plainTables sampleHost).2.1
      (onLogon plainTables sampleHost (some strangerIdentity) false
        (sampleSession (some sampleSettings))).2.1
      { context := some { settings := some sampleSettings, errorInfo := ErrorInfo.ERRINFO_NONE },
        identity := emptyIdentity }
      { settings := some sampleSettings, errorInfo := ErrorInfo.ERRINFO_NONE } sampleSettings
      rfl rfl rfl rfl⟩

/-- C6: for an identity that is null, or whose user, domain and password buffers are
each null or of length zero, `onLogon` returns true and leaves no logon decision
recorded, whatever was recorded before; a later `onPostConnect` whose settings hold a
non-empty user name and a non-empty password returns exactly what `authenticateLogin`
decides on these two. -/
theorem onLogon_defers (U : QUnicodeTables) (host : Host)
    (identity : Option SEC_WINNT_AUTH_IDENTITY) (automatic : Bool) (d : Private)
    (hempty : ∀ i, identity = some i →
      (i.User = none ∨ i.UserLength = 0) ∧ (i.Domain = none ∨ i.DomainLength = 0)
        ∧ (i.Password = none ∨ i.PasswordLength = 0)) :
    onLogon U host identity automatic d
      = (true, { d with logonDecisionPresent := false, logonAccepted := false }, [])
    ∧ ∀ (peer : freerdp_peer) (context : rdpContext) (settings : rdpSettings),
        peer.context = some context → context.settings = some settings →
        settings.string FreeRDP_Settings_Keys_String.Username ≠ [] →
        settings.string FreeRDP_Settings_Keys_String.Password ≠ [] →
        ∃ d', onPostConnect U host
            { (onLogon U host identity automatic d).2.1 with peer := some peer }
          = Except.ok
              ((authenticateLogin U host d.server
                  (fromLatin1 (settings.string FreeRDP_Settings_Keys_String.Username))
                  (fromLatin1 (settings.string FreeRDP_Settings_Keys_String.Password))).1,
               d',
               (authenticateLogin U host d.server
                  (fromLatin1 (settings.string FreeRDP_Settings_Keys_String.Username))
                  (fromLatin1 (settings.string FreeRDP_Settings_Keys_String.Password))).2) := by
  have hbuffer : ∀ (value : Option (List Nat)) (length : Nat),
      (value = none ∨ length = 0) → authIdentityString U value length = [] := by
    intro value length h
    cases value with
    | none => rfl
    | some buffer =>
      rcases h with h | h
      · cases h
      · simp [authIdentityString, h]
  have hcredentials : logonCredentials U identity = ([], []) := by
    cases identity with
    | none => rfl
    | some i =>
      obtain ⟨hu, hd, hp⟩ := hempty i rfl
      simp [logonCredentials, hbuffer _ _ hu, hbuffer _ _ hd, hbuffer _ _ hp]
  have hlogon : onLogon U host identity automatic d
      = (true, { d with logonDecisionPresent := false, logonAccepted := false }, []) := by
    simp [onLogon, hcredentials]
  refine ⟨hlogon, ?_⟩
  intro peer context settings hcontext hsettings huser hpassword
  rw [hlogon]
  have huser' : fromLatin1 (settings.string FreeRDP_Settings_Keys_String.Username) ≠ [] := huser
  have hpassword' : fromLatin1 (settings.string FreeRDP_Settings_Keys_String.Password) ≠ [] :=
    hpassword
  simp [onPostConnect, deref, hcontext, hsettings, freerdp_settings_set_bool,
    freerdp_settings_get_string, huser', hpassword', bind, Except.bind, pure, Except.pure]

/-- C6 on the sample session: an identity with zero-length buffers defers, and the
settings' `bob` / `second` are then what `authenticateLogin` is asked about. -/
theorem onLogon_defers_witness :
    onLogon plainTables sampleHost (some emptyIdentity) true
        { sampleSession (some sampleSettings) with logonDecisionPresent := true }
      = (true, { sampleSession (some sampleSettings) with
                  logonDecisionPresent := false, logonAccepted := false }, [])
    ∧ ∃ d', onPostConnect plainTables sampleHost
          { (onLogon plainTables sampleHost (some emptyIdentity) true
              { sampleSession (some sampleSettings) with logonDecisionPresent := true }).2.1 with
            peer := some { context := some { settings := some sampleSettings,
                                             errorInfo := ErrorInfo.ERRINFO_NONE },
                           identity := bobIdentity } }
        = Except.ok
            ((authenticateLogin plainTables sampleHost sampleServer
                (fromLatin1 (QStringLiteral "bob")) (fromLatin1 (QStringLiteral "second"))).1,
             d',
             (authenticateLogin plainTables sampleHost sampleServer
                (fromLatin1 (QStringLiteral "bob")) (fromLatin1 (QStringLiteral "second"))).2) :=
  ⟨(onLogon_defers plainTables sampleHost (some emptyIdentity) true
      { sampleSession (some sampleSettings) with logonDecisionPresent := true }
      (by intro i hi; cases hi; exact ⟨Or.inr rfl, Or.inl rfl, Or.inr rfl⟩)).1,
   (onLogon_defers plainTables sampleHost (some emptyIdentity) true
      { sampleSession (some sampleSettings) with logonDecisionPresent := true }
      (by intro i hi; cases hi; exact ⟨Or.inr rfl, Or.inl rfl, Or.inr rfl⟩)).2
      { context := some { settings := some sampleSettings, errorInfo := ErrorInfo.ERRINFO_NONE },
        identity := bobIdentity }
      { settings := some sampleSettings, errorInfo := ErrorInfo.ERRINFO_NONE }
      sampleSettings rfl rfl (by decide) (by decide)⟩

/-- What `onCapabilities` computes on a session whose pointers are all valid. -/
theorem onCapabilities_eval (d : Private) (peer : freerdp_peer) (context : rdpContext)
    (settings : rdpSettings) :
    onCapabilities (withSettings d peer context settings)
      = Except.ok
          (if settings.bool FreeRDP_Settings_Keys_Bool.SupportGraphicsPipeline = true then
            (settings.bool FreeRDP_Settings_Keys_Bool.DesktopResize
                && decide (settings.uint32 FreeRDP_Settings_Keys_UInt32.PointerCacheSize ≠ 0),
              withSettings d peer context
                (if settings.uint32 FreeRDP_Settings_Keys_UInt32.ColorDepth ≠ 32 then
                  { settings with uint32 := fun k =>
                      if k = FreeRDP_Settings_Keys_UInt32.ColorDepth then 32 else settings.uint32 k }
                else settings))
          else (false, withSettings d peer context settings)) := by
  by_cases hgfx : settings.bool FreeRDP_Settings_Keys_Bool.SupportGraphicsPipeline = true
  · by_cases hdepth : settings.uint32 FreeRDP_Settings_Keys_UInt32.ColorDepth = 32
    · by_cases hresize : settings.bool FreeRDP_Settings_Keys_Bool.DesktopResize = true
      · by_cases hcache : settings.uint32 FreeRDP_Settings_Keys_UInt32.PointerCacheSize = 0
        · simp [onCapabilities, withSettings, deref, freerdp_settings_get_bool,
            freerdp_settings_get_uint32, freerdp_settings_set_uint32, hgfx, hdepth, hresize, hcache,
            bind, Except.bind, pure, Except.pure]
        · simp [onCapabilities, withSettings, deref, freerdp_settings_get_bool,
            freerdp_settings_get_uint32, freerdp_settings_set_uint32, hgfx, hdepth, hresize, hcache,
            bind, Except.bind, pure, Except.pure]
      · simp [onCapabilities, withSettings, deref, freerdp_settings_get_bool,
          freerdp_settings_get_uint32, freerdp_settings_set_uint32, hgfx, hdepth, hresize,
          bind, Except.bind, pure, Except.pure]
    · by_cases hresize : settings.bool FreeRDP_Settings_Keys_Bool.DesktopResize = true
      · by_cases hcache : settings.uint32 FreeRDP_Settings_Keys_UInt32.PointerCacheSize = 0
        · simp [onCapabilities, withSettings, deref, freerdp_settings_get_bool,
            freerdp_settings_get_uint32, freerdp_settings_set_uint32, hgfx, hdepth, hresize, hcache,
            bind, Except.bind, pure, Except.pure]
        · simp [onCapabilities, withSettings, deref, freerdp_settings_get_bool,
            freerdp_settings_get_uint32, freerdp_settings_set_uint32, hgfx, hdepth, hresize, hcache,
            bind, Except.bind, pure, Except.pure]
      · simp [onCapabilities, withSettings, deref, freerdp_settings_get_bool,
          freerdp_settings_get_uint32, freerdp_settings_set_uint32, hgfx, hdepth, hresize,
          bind, Except.bind, pure, Except.pure]
  · simp [onCapabilities, withSettings, deref, freerdp_settings_get_bool, hgfx,
      bind, Except.bind, pure, Except.pure]

/-- C7: on any client settings, `onCapabilities` returns false exactly when the
client lacks graphics-pipeline support, lacks desktop-resize support, or reports a
pointer cache of size zero; the advertised colour depth does not change the result;
and when the result is true the colour depth setting is 32 afterwards. -/
theorem onCapabilities_spec (d : Private) (peer : freerdp_peer) (context : rdpContext)
    (settings : rdpSettings) :
    ∃ (accepted : Bool) (d' : Private),
      onCapabilities (withSettings d peer context settings) = Except.ok (accepted, d')
      ∧ (accepted = false ↔
          (settings.bool FreeRDP_Settings_Keys_Bool.SupportGraphicsPipeline = false
            ∨ settings.bool FreeRDP_Settings_Keys_Bool.DesktopResize = false
            ∨ settings.uint32 FreeRDP_Settings_Keys_UInt32.PointerCacheSize = 0))
      ∧ (accepted = true →
          (sessionSettings d').map (fun s => s.uint32 FreeRDP_Settings_Keys_UInt32.ColorDepth)
            = some 32)
      ∧ ∀ depth : Nat, ∃ d'',
          onCapabilities (withSettings d peer context
            { settings with uint32 := fun k =>
                if k = FreeRDP_Settings_Keys_UInt32.ColorDepth then depth else settings.uint32 k })
          = Except.ok (accepted, d'') := by
  by_cases hgfx : settings.bool FreeRDP_Settings_Keys_Bool.SupportGraphicsPipeline = true
  · refine ⟨settings.bool FreeRDP_Settings_Keys_Bool.DesktopResize
        && decide (settings.uint32 FreeRDP_Settings_Keys_UInt32.PointerCacheSize ≠ 0),
      withSettings d peer context
        (if settings.uint32 FreeRDP_Settings_Keys_UInt32.ColorDepth ≠ 32 then
          { settings with uint32 := fun k =>
              if k = FreeRDP_Settings_Keys_UInt32.ColorDepth then 32 else settings.uint32 k }
        else settings), ?_, ?_, ?_, ?_⟩
    · rw [onCapabilities_eval, if_pos hgfx]
    · cases hresize : settings.bool FreeRDP_Settings_Keys_Bool.DesktopResize <;> simp [hgfx]
    · intro _
      by_cases hdepth : settings.uint32 FreeRDP_Settings_Keys_UInt32.ColorDepth = 32
      · simp [sessionSettings, withSettings, hdepth]
      · simp [sessionSettings, withSettings, hdepth]
    · intro depth
      rw [onCapabilities_eval, if_pos hgfx]
      exact ⟨_, rfl⟩
  · refine ⟨false, withSettings d peer context settings, ?_, ?_, ?_, ?_⟩
    · rw [onCapabilities_eval, if_neg hgfx]
    · simp at hgfx
      simp [hgfx]
    · simp
    · intro depth
      rw [onCapabilities_eval, if_neg hgfx]
      exact ⟨_, rfl⟩

/-! ## The state machine and the worker loop -/

theorem announced_append (a b : List Event) : announced (a ++ b) = announced a ++ announced b := by
  induction a with
  | nil => rfl
  | cons e a ih => cases e <;> simp [announced, ih]

theorem announced_isPrefix {seen trace : List Event} (h : seen <+: trace) :
    announced seen <+: announced trace := by
  obtain ⟨rest, hrest⟩ := h
  exact ⟨announced rest, by rw [← hrest, announced_append]⟩

/-- The tail of a pass leaves the session alone and announces no state. -/
theorem passTail_spec (t : Tick) (signalled : Bool) (d : Private) (trace : List Event) :
    (passTail t signalled d trace).2.1 = d
    ∧ announced (passTail t signalled d trace).2.2 = announced trace := by
  unfold passTail
  constructor
  · simp only []
    split_ifs <;> rfl
  · simp only []
    split_ifs <;> simp [announced_append, announced]

/-- A pass of a session that is running or streaming announces nothing and keeps the
state, or moves it from `Running` to `Streaming` and announces that. -/
theorem pass_spec (t : Tick) (d : Private)
    (hstate : d.state = State.Running ∨ d.state = State.Streaming) :
    ((pass t d).2.1.state = d.state ∧ announced (pass t d).2.2 = [])
    ∨ (d.state = State.Running ∧ (pass t d).2.1.state = State.Streaming
        ∧ announced (pass t d).2.2 = [State.Streaming]) := by
  unfold pass
  split_ifs with h1 h2 h3 h4 h5 h6
  · exact Or.inl ⟨rfl, rfl⟩
  · exact Or.inl ⟨rfl, rfl⟩
  · rcases hstate with hs | hs
    · right
      refine ⟨hs, ?_, ?_⟩
      · rw [(passTail_spec _ _ _ _).1]
        simp [setState, hs]
      · rw [(passTail_spec _ _ _ _).2]
        simp [setState, hs, announced_append, announced]
    · left
      constructor
      · rw [(passTail_spec _ _ _ _).1]
        simp [setState, hs]
      · rw [(passTail_spec _ _ _ _).2]
        simp [setState, hs, announced_append, announced]
  · exact Or.inl ⟨rfl, rfl⟩
  · exact Or.inl ⟨by rw [(passTail_spec _ _ _ _).1], by rw [(passTail_spec _ _ _ _).2]; rfl⟩
  · exact Or.inl ⟨by rw [(passTail_spec _ _ _ _).1], by rw [(passTail_spec _ _ _ _).2]; rfl⟩
  · exact Or.inl ⟨by rw [(passTail_spec _ _ _ _).1], by rw [(passTail_spec _ _ _ _).2]; rfl⟩

/-- The loop of a session that is running or streaming announces nothing and keeps
the state, or moves it from `Running` to `Streaming` and announces that once. -/
theorem runLoop_spec (ticks : List Tick) (d : Private)
    (hstate : d.state = State.Running ∨ d.state = State.Streaming) :
    ((runLoop ticks d).1.state = d.state ∧ announced (runLoop ticks d).2 = [])
    ∨ (d.state = State.Running ∧ (runLoop ticks d).1.state = State.Streaming
        ∧ announced (runLoop ticks d).2 = [State.Streaming]) := by
  induction ticks generalizing d with
  | nil => exact Or.inl ⟨rfl, rfl⟩
  | cons t ticks ih =>
    unfold runLoop
    by_cases hgo : (pass t d).1 = true
    · simp only [hgo, if_true, announced_append]
      rcases pass_spec t d hstate with ⟨hs, ha⟩ | ⟨hrun, hs, ha⟩
      · rcases ih (pass t d).2.1 (by rw [hs]; exact hstate) with ⟨hs', ha'⟩ | ⟨hrun', hs', ha'⟩
        · exact Or.inl ⟨by rw [hs', hs], by rw [ha, ha']; rfl⟩
        · exact Or.inr ⟨by rw [← hs]; exact hrun', hs', by rw [ha, ha']; rfl⟩
      · rcases ih (pass t d).2.1 (Or.inr hs) with ⟨hs', ha'⟩ | ⟨hrun', _, _⟩
        · exact Or.inr ⟨hrun, by rw [hs', hs], by rw [ha, ha']; rfl⟩
        · rw [hs] at hrun'
          cases hrun'
    · simp only [hgo]
      exact pass_spec t d hstate

/-- What `initialize` leaves behind on a fresh session: `Starting` announced, and valid
peer and context pointers whenever the worker is started. -/
theorem initialize_spec (setup : Setup) (server : Server) :
    (initializeSession setup (construct server)).2.2 = [Event.stateChanged State.Starting]
    ∧ (initializeSession setup (construct server)).2.1.state = State.Starting
    ∧ ((initializeSession setup (construct server)).1 = true →
        ∃ peer context, (initializeSession setup (construct server)).2.1.peer = some peer
          ∧ peer.context = some context) := by
  unfold initializeSession
  cases hpeer : setup.peer_new with
  | none => simp [setState, construct]
  | some identity =>
    cases hcontext : setup.context_new with
    | none => simp [setState, construct]
    | some settings =>
      simp only []
      split_ifs <;> simp [setState, construct]

theorem setState_state (newState : State) (d : Private) :
    (setState newState d).1.state = newState := by
  unfold setState
  split_ifs with h
  · exact h.symm
  · rfl

theorem announced_setState (newState : State) (d : Private) :
    announced (setState newState d).2 = if newState = d.state then [] else [newState] := by
  unfold setState
  split_ifs <;> rfl

theorem onClose_spec (d : Private) :
    (onClose d).2.1.state = State.Closed
    ∧ announced (onClose d).2.2 = if State.Closed = d.state then [] else [State.Closed] := by
  constructor
  · exact setState_state _ _
  · show announced ([Event.clipboardClose, Event.videoStreamClose] ++ (setState State.Closed d).2) = _
    rw [announced_append, announced_setState]
    rfl

/-- The worker of a session that `initialize` has started runs to `Closed`, announcing
`Running`, possibly `Streaming`, and `Closed`. -/
theorem run_spec (ticks : List Tick) (d : Private) (peer : freerdp_peer) (context : rdpContext)
    (hstate : d.state = State.Starting) (hpeer : d.peer = some peer)
    (hcontext : peer.context = some context) :
    ∃ d' trace, run ticks d = Except.ok (d', trace) ∧ d'.state = State.Closed
      ∧ (announced trace = [State.Running, State.Closed]
        ∨ announced trace = [State.Running, State.Streaming, State.Closed]) := by
  have hrunning : (setState State.Running d).1.state = State.Running := setState_state _ _
  have hannounce : announced (setState State.Running d).2 = [State.Running] := by
    rw [announced_setState, hstate]
    rfl
  refine ⟨(onClose (runLoop ticks (setState State.Running d).1).1).2.1,
    (setState State.Running d).2 ++ (runLoop ticks (setState State.Running d).1).2
      ++ (onClose (runLoop ticks (setState State.Running d).1).1).2.2, ?_, ?_, ?_⟩
  · simp only [run, deref, hpeer, hcontext, bind, Except.bind, pure, Except.pure]
  · exact (onClose_spec _).1
  · rw [announced_append, announced_append, hannounce, (onClose_spec _).2]
    rcases runLoop_spec ticks (setState State.Running d).1 (Or.inl hrunning) with
      ⟨hs, ha⟩ | ⟨_, hs, ha⟩
    · left
      rw [ha, hs, hrunning]
      rfl
    · right
      rw [ha, hs]
      rfl

/-- C8: every session runs to an end, and the states it announces from construction
through `initialize`, the worker loop (whatever the engine answers) and `onClose` are,
after `Initial`, a subsequence of `Initial, Starting, Running, Streaming, Closed`;
each announcement moves to a strictly later state, so no state is announced twice and
nothing follows `Closed`.  The same holds at every point on the way, and the state the
session ends in is the one announced last. -/
theorem session_states_forward (server : Server) (setup : Setup) (ticks : List Tick) :
    ∃ d trace, session server setup ticks = Except.ok (d, trace)
      ∧ List.Sublist (State.Initial :: announced trace)
          [State.Initial, State.Starting, State.Running, State.Streaming, State.Closed]
      ∧ List.Pairwise (fun a b => State.rank a < State.rank b) (State.Initial :: announced trace)
      ∧ (State.Initial :: announced trace).getLast? = some d.state
      ∧ ∀ seen, seen <+: trace →
          List.Sublist (State.Initial :: announced seen)
            [State.Initial, State.Starting, State.Running, State.Streaming, State.Closed]
          ∧ List.Pairwise (fun a b => State.rank a < State.rank b)
              (State.Initial :: announced seen) := by
  obtain ⟨htrace, hstate, hstarted⟩ := initialize_spec setup server
  have hconclude : ∀ (d : Private) (trace : List Event),
      (announced trace = [State.Starting] ∧ d.state = State.Starting
        ∨ announced trace = [State.Starting, State.Running, State.Closed] ∧ d.state = State.Closed
        ∨ announced trace = [State.Starting, State.Running, State.Streaming, State.Closed]
            ∧ d.state = State.Closed) →
      List.Sublist (State.Initial :: announced trace)
          [State.Initial, State.Starting, State.Running, State.Streaming, State.Closed]
      ∧ List.Pairwise (fun a b => State.rank a < State.rank b) (State.Initial :: announced trace)
      ∧ (State.Initial :: announced trace).getLast? = some d.state
      ∧ ∀ seen, seen <+: trace →
          List.Sublist (State.Initial :: announced seen)
            [State.Initial, State.Starting, State.Running, State.Streaming, State.Closed]
          ∧ List.Pairwise (fun a b => State.rank a < State.rank b)
              (State.Initial :: announced seen) := by
    intro d trace h
    have hsub : List.Sublist (State.Initial :: announced trace)
        [State.Initial, State.Starting, State.Running, State.Streaming, State.Closed] := by
      rcases h with ⟨h, _⟩ | ⟨h, _⟩ | ⟨h, _⟩ <;> rw [h] <;> decide
    have hpair : List.Pairwise (fun a b => State.rank a < State.rank b)
        (State.Initial :: announced trace) := by
      rcases h with ⟨h, _⟩ | ⟨h, _⟩ | ⟨h, _⟩ <;> rw [h] <;> simp [State.rank]
    refine ⟨hsub, hpair, ?_, ?_⟩
    · rcases h with ⟨h, hd⟩ | ⟨h, hd⟩ | ⟨h, hd⟩ <;> rw [h, hd] <;> rfl
    · intro seen hseen
      have hpre : State.Initial :: announced seen <+: State.Initial :: announced trace :=
        (List.prefix_cons_inj _).2 (announced_isPrefix hseen)
      exact ⟨hpre.sublist.trans hsub, hpair.sublist hpre.sublist⟩
  by_cases hgo : (initializeSession setup (construct server)).1 = true
  · obtain ⟨peer, context, hpeer, hcontext⟩ := hstarted hgo
    obtain ⟨d', trace, hrun, hclosed, hann⟩ :=
      run_spec ticks (initializeSession setup (construct server)).2.1 peer context
        hstate hpeer hcontext
    refine ⟨d', (initializeSession setup (construct server)).2.2 ++ trace, ?_, ?_⟩
    · simp [session, hgo, hrun, bind, Except.bind, pure, Except.pure]
    · apply hconclude
      rw [announced_append, htrace]
      rcases hann with h | h
      · exact Or.inr (Or.inl ⟨by rw [h]; rfl, hclosed⟩)
      · exact Or.inr (Or.inr ⟨by rw [h]; rfl, hclosed⟩)
  · refine ⟨(initializeSession setup (construct server)).2.1,
      (initializeSession setup (construct server)).2.2, ?_, ?_⟩
    · simp [session, hgo, pure, Except.pure]
    · apply hconclude
      exact Or.inl ⟨by rw [htrace]; rfl, hstate⟩

/-- The tail of a pass does not touch the video stream's initializer. -/
theorem passTail_count (t : Tick) (signalled : Bool) (d : Private) (trace : List Event) :
    (passTail t signalled d trace).2.2.count Event.videoStreamInitialize
      = trace.count Event.videoStreamInitialize := by
  unfold passTail
  simp only []
  split_ifs <;> simp [List.count_append]

/-- C9, as stated, fails: three consecutive ready ticks are one ready-episode, and the
worker invokes the video stream's `initialize()` on each of the three. -/
theorem run_initializes_video_on_every_ready_tick :
    readyEpisodes [readyTick, readyTick, readyTick] = 1
    ∧ (session sampleServer goodSetup [readyTick, readyTick, readyTick]).toOption.map
        (fun r => r.2.count Event.videoStreamInitialize) = some 3 := by
  refine ⟨by decide, by rfl⟩

/-- C9, amended: a pass of the loop invokes the video stream's `initialize()` exactly
once when it gets past the transport checks and finds the peer connected, the dynamic
channel joined and its state ready, and not at all otherwise; so the worker invokes it
at most once per tick that reports ready, and never on a tick that reports another
state. -/
theorem videoInitialize_once_per_ready_tick :
    (∀ (t : Tick) (d : Private),
      (pass t d).2.2.count Event.videoStreamInitialize = if t.reachesVideo then 1 else 0)
    ∧ (∀ (ticks : List Tick) (d : Private),
      (runLoop ticks d).2.count Event.videoStreamInitialize ≤ (ticks.filter Tick.ready).length)
    ∧ (∀ (ticks : List Tick) (d : Private), (∀ t ∈ ticks, t.ready = false) →
      (runLoop ticks d).2.count Event.videoStreamInitialize = 0) := by
  have hpass : ∀ (t : Tick) (d : Private),
      (pass t d).2.2.count Event.videoStreamInitialize = if t.reachesVideo then 1 else 0 := by
    intro t d
    unfold pass
    have hset : ∀ newState : State,
        (setState newState d).2.count Event.videoStreamInitialize = 0 := by
      intro newState
      unfold setState
      split_ifs <;> simp
    split_ifs with h1 h2 h3 h4 h5 h6 <;>
      simp_all [passTail_count, Tick.reachesVideo, Tick.ready, List.count_append]
  have hloop : ∀ (ticks : List Tick) (d : Private),
      (runLoop ticks d).2.count Event.videoStreamInitialize
        ≤ (ticks.filter Tick.ready).length := by
    intro ticks
    induction ticks with
    | nil => intro d; simp [runLoop]
    | cons t ticks ih =>
      intro d
      have hone : (pass t d).2.2.count Event.videoStreamInitialize
          ≤ ([t].filter Tick.ready).length := by
        rw [hpass]
        by_cases hr : t.ready = true
        · simp [hr]; split <;> omega
        · have : t.reachesVideo = false := by simp_all [Tick.reachesVideo]
          simp [this]
      have hsplit : ((t :: ticks).filter Tick.ready).length
          = ([t].filter Tick.ready).length + (ticks.filter Tick.ready).length := by
        rw [← List.length_append, ← List.filter_append]
        rfl
      unfold runLoop
      by_cases hgo : (pass t d).1 = true
      · simp only [hgo, if_true, List.count_append]
        have := ih (pass t d).2.1
        omega
      · simp only [hgo]
        simp only [Bool.false_eq_true, if_false]
        omega
  refine ⟨hpass, hloop, ?_⟩
  intro ticks d hnone
  have hfilter : ticks.filter Tick.ready = [] := by
    rw [List.filter_eq_nil_iff]
    intro t ht
    simp [hnone t ht]
  have := hloop ticks d
  rw [hfilter] at this
  simpa using this

/-! ## Closing a session whose peer was never created -/

/-- C10: after an `initialize` in which `freerdp_peer_new` failed the peer pointer is
null; `close(CloseReason::None)` then does nothing at all, while
`close(CloseReason::VideoInitFailed)` follows the null peer pointer on its way to
`freerdp_set_error_info`. -/
theorem close_with_null_peer (server : Server) (setup : Setup) :
    (initializeSession { setup with peer_new := none } (construct server)).2.1.peer = none
    ∧ close CloseReason.None
        (initializeSession { setup with peer_new := none } (construct server)).2.1
      = Except.ok
          ((initializeSession { setup with peer_new := none } (construct server)).2.1, [])
    ∧ close CloseReason.VideoInitFailed
        (initializeSession { setup with peer_new := none } (construct server)).2.1
      = Except.error Fault.nullDereference := by
  refine ⟨rfl, rfl, rfl⟩

/-! ## Entries without a password, and blank login names -/

/-- The scan of the user list does not see the entries whose password is empty. -/
theorem scanUsers_filter (U : QUnicodeTables) (username password : QString) (users : List User) :
    scanUsers U username password (users.filter (fun user => !user.password.isEmpty))
      = scanUsers U username password users := by
  induction users with
  | nil => rfl
  | cons user users ih =>
    by_cases hempty : user.password = []
    · simp [scanUsers, hempty, ih]
    · simp [scanUsers, List.filter_cons, hempty, ih]

/-- C11: `authenticateLogin` decides the same, with the same calls, on a user list and
on that list without its empty-password entries, for every user name, password and
authentication mode; and with system-login authentication disabled an empty supplied
password is never accepted. -/
theorem authenticateLogin_skips_empty_passwords (U : QUnicodeTables) (host : Host) :
    (∀ (server : Server) (rawUsername password : QString),
      authenticateLogin U host
          { server with users := server.users.filter (fun user => !user.password.isEmpty) }
          rawUsername password
        = authenticateLogin U host server rawUsername password)
    ∧ (∀ (users : List User) (rawUsername : QString),
      (authenticateLogin U host { usePAMAuthentication := false, users := users }
          rawUsername []).1 = false) := by
  constructor
  · intro server rawUsername password
    simp only [authenticateLogin, scanUsers_filter]
  · intro users rawUsername
    have hnone : ¬ (scanUsers U (normalizeLoginName U rawUsername) [] users = true) := by
      rw [scanUsers_iff]
      rintro ⟨user, _, hne, _, hpw⟩
      exact hne hpw
    simpa [authenticateLogin] using hnone

/-- A string of spaces trims to the empty string. -/
theorem trimmed_of_blank (U : QUnicodeTables) (s : QString) (hblank : ∀ c ∈ s, isSpace U c = true) :
    trimmed U s = [] := by
  have hright : s.rdropWhile (isSpace U) = [] := List.rdropWhile_eq_nil_iff.2 hblank
  rw [trimmed_eq, hright]
  rfl

/-- A blank login name is normalized to the empty string. -/
theorem normalizeLoginName_of_blank (U : QUnicodeTables) (s : QString)
    (hblank : ∀ c ∈ s, isSpace U c = true) : normalizeLoginName U s = [] := by
  have ht := trimmed_of_blank U s hblank
  unfold normalizeLoginName
  simp only [ht]
  rfl

/-- The empty name matches no configured name. -/
theorem matchesLoginName_nil (U : QUnicodeTables) (configuredName : QString) :
    matchesLoginName U [] configuredName = false := by
  cases configuredName <;>
    simp [matchesLoginName, compareCaseInsensitive, ucstricmp, indexOf, indexOfFrom]

/-- The empty name is found nowhere in the user list. -/
theorem scanUsers_nil (U : QUnicodeTables) (password : QString) (users : List User) :
    scanUsers U [] password users = false := by
  induction users with
  | nil => rfl
  | cons user users ih => simp [scanUsers, matchesLoginName_nil, ih]

/-- C12: when the raw user name is empty or all whitespace, `authenticateLogin`
returns false for every password, authentication mode, process login name, login
service and user list, and makes no PAM call; so a session that deferred at `onLogon`
and whose settings and peer identity supply no user name is rejected by
`onPostConnect`. -/
theorem authenticateLogin_rejects_blank_name (U : QUnicodeTables) (host : Host) :
    (∀ (server : Server) (rawUsername password : QString),
      (∀ c ∈ rawUsername, isSpace U c = true) →
      authenticateLogin U host server rawUsername password
        = (false, [Event.authenticateLogin rawUsername password, Event.users]))
    ∧ (∀ (d : Private) (peer : freerdp_peer) (context : rdpContext) (settings : rdpSettings),
      d.peer = some peer → peer.context = some context → context.settings = some settings →
      d.logonDecisionPresent = false →
      settings.string FreeRDP_Settings_Keys_String.Username = [] → peer.identity.User = none →
      ∃ d', onPostConnect U host d
        = Except.ok (false, d',
            [Event.authenticateLogin []
              (fromLatin1 (settings.string FreeRDP_Settings_Keys_String.Password)),
             Event.users])) := by
  have hauth : ∀ (server : Server) (rawUsername password : QString),
      (∀ c ∈ rawUsername, isSpace U c = true) →
      authenticateLogin U host server rawUsername password
        = (false, [Event.authenticateLogin rawUsername password, Event.users]) := by
    intro server rawUsername password hblank
    have hname := normalizeLoginName_of_blank U rawUsername hblank
    cases hmode : server.usePAMAuthentication <;>
      simp [authenticateLogin, hname, hmode, matchesLoginName_nil, scanUsers_nil]
  refine ⟨hauth, ?_⟩
  intro d peer context settings hpeer hcontext hsettings hundecided huser hidentity
  have hverdict := hauth d.server []
    (fromLatin1 (settings.string FreeRDP_Settings_Keys_String.Password)) (by simp)
  have huser' : fromLatin1 (settings.string FreeRDP_Settings_Keys_String.Username) = [] := huser
  simp [onPostConnect, deref, hpeer, hcontext, hsettings, hundecided, freerdp_settings_set_bool,
    freerdp_settings_get_string, huser', hidentity, hverdict, bind, Except.bind, pure, Except.pure]

/-- C12 on the sample host with system login on: the user name of three blanks is
rejected without a PAM call, and so is a deferred session without any user name. -/
theorem authenticateLogin_rejects_blank_name_witness :
    authenticateLogin plainTables sampleHost { usePAMAuthentication := true, users := twoBobs }
        (QStringLiteral "   ") (QStringLiteral "secret")
      = (false, [Event.authenticateLogin (QStringLiteral "   ") (QStringLiteral "secret"),
          Event.users])
    ∧ ∃ d', onPostConnect plainTables sampleHost
        { sampleSession none with peer := some anonymousPeer }
      = Except.ok (false, d', [Event.authenticateLogin [] (fromLatin1 []), Event.users]) :=
  ⟨(authenticateLogin_rejects_blank_name plainTables sampleHost).1
      { usePAMAuthentication := true, users := twoBobs } (QStringLiteral "   ")
      (QStringLiteral "secret") (by decide),
   (authenticateLogin_rejects_blank_name plainTables sampleHost).2
      { sampleSession none with peer := some anonymousPeer } anonymousPeer
      { settings := some anonymousSettings, errorInfo := ErrorInfo.ERRINFO_NONE }
      anonymousSettings rfl rfl rfl rfl rfl rfl⟩

end KRdp
